import Mathlib

/-!
Verification of the data-shaping core of the profile-analytics dashboard
(src/streamlit_app.py): dataset loading, row projection, filtering,
sorting and timeline aggregation.

The Python program is shallowly embedded.  JSON objects become structures
whose fields are Option-valued (None models an absent key; x.get(k, d)
becomes Option.getD).  The pandas / Python library operations actually
exercised by the program are modelled explicitly:

* pandas Series.str.contains(pat, case=False, na=False) performs a
  case-insensitive *regular-expression* search (regex=True is the pandas
  default).  We embed a regular-expression engine (Brzozowski derivatives)
  together with a parser for the fragment of Python re syntax relevant
  here: literal characters, the dot wildcard, alternation, grouping, the
  three quantifiers and escapes.  Character classes, anchors and brace
  counts are rejected by the parser; case-insensitivity is modelled by
  ASCII-lowercasing both pattern and subject, which coincides with
  re.IGNORECASE on the ASCII fragment.
* datetime.strptime(s, "%Y-%m-%d") is embedded following the regex
  CPython builds for that format: exactly four ASCII digits for the year,
  one or two digits for month (1-12) and day, dash separators, the whole
  string consumed, and the resulting triple must be a valid calendar date
  with year at least 1.
* list.sort(key=..., reverse=...) is Timsort, i.e. *the* stable sort by
  the given key; we embed it as a stable insertion sort with a boolean
  comparison (any two stable sorts agree).
* open / json.load are external effects; load_data is embedded relative
  to an abstract file system (source → Option contents) and an abstract
  JSON parser, and Streamlit st.stop after st.error is modelled by
  returning an error value (Except), which carries no partial result.
-/

open List

set_option maxRecDepth 4000

/-! ## Data model (spec section 3, mirroring the JSON shapes the code reads) -/

/-- One evidence item of a profile.  Every key may be absent. -/
structure Evidence where
  date : Option String
  quote : Option String
  tweet_url : Option String
deriving DecidableEq, Repr

/-- One researched profile.  Every key may be absent; the code reads each
field with profile.get(key, default). -/
structure Profile where
  username : Option String
  full_name : Option String
  roles : Option (List String)
  company : Option String
  company_size : Option String
  profile_url : Option String
  evidence_count : Option Nat
  first_evidence_date : Option String
  latest_evidence_date : Option String
  evidence : Option (List Evidence)
deriving DecidableEq, Repr

/-- The root document: data.get("metadata", {}) and data.get("profiles", []).
Metadata is purely descriptive and is only echoed by the presentation
layer, so it is modelled as an opaque association list. -/
structure Document where
  metadata : Option (List (String × String))
  profiles : Option (List Profile)
deriving DecidableEq, Repr

/-- One flat row of the DataFrame built by extract_dataframe. -/
structure Row where
  username : String
  full_name : String
  roles : String
  company : String
  company_size : String
  evidence_count : Nat
  first_date : String
  latest_date : String
deriving DecidableEq, Repr

/-- The three sidebar controls (text_input, slider, selectbox) bundled:
search text (default ""), minimum evidence count (slider lower bound 0)
and selected company size ("All" is the no-restriction sentinel). -/
structure Query where
  search_query : String
  min_evidence : Nat
  selected_size : String
deriving DecidableEq, Repr

/-! ## Basic string helpers -/

/-- ASCII lowercasing of the characters of a string; models Python
str.lower / re.IGNORECASE on the ASCII fragment. -/
def lowerChars (s : String) : List Char :=
  s.data.map Char.toLower

/-- Python ", ".join(xs), used for the roles column. -/
def joinComma : List String → String
  | [] => ""
  | [x] => x
  | x :: y :: xs => x ++ ", " ++ joinComma (y :: xs)

/-! ## Regular expressions (model of the re engine behind pandas
Series.str.contains with regex=True) -/

/-- Regular expression abstract syntax. -/
inductive RE : Type
  | fail : RE
  | eps : RE
  | lit : Char → RE
  | dot : RE
  | alt : RE → RE → RE
  | cat : RE → RE → RE
  | star : RE → RE
deriving DecidableEq, Repr

/-- Does the expression accept the empty string? -/
def nullable : RE → Bool
  | .fail => false
  | .eps => true
  | .lit _ => false
  | .dot => false
  | .alt r s => nullable r || nullable s
  | .cat r s => nullable r && nullable s
  | .star _ => true

/-- Smart concatenation (normalises fail and eps). -/
def catS : RE → RE → RE
  | .fail, _ => .fail
  | _, .fail => .fail
  | .eps, s => s
  | r, .eps => r
  | r, s => .cat r s

/-- Smart alternation (normalises fail). -/
def altS : RE → RE → RE
  | .fail, s => s
  | r, .fail => r
  | r, s => .alt r s

/-- Brzozowski derivative with respect to one character.  The dot
wildcard does not match a newline, as in Python re without DOTALL. -/
def rderiv : RE → Char → RE
  | .fail, _ => .fail
  | .eps, _ => .fail
  | .lit c, d => if d = c then .eps else .fail
  | .dot, d => if d = '\n' then .fail else .eps
  | .alt r s, d => altS (rderiv r d) (rderiv s d)
  | .cat r s, d =>
      if nullable r then altS (catS (rderiv r d) s) (rderiv s d)
      else catS (rderiv r d) s
  | .star r, d => catS (rderiv r d) (.star r)

/-- Does some prefix of the character list match the expression? -/
def matchPre : RE → List Char → Bool
  | r, [] => nullable r
  | r, c :: cs => nullable r || matchPre (rderiv r c) cs

/-- Python re.search: does the expression match starting at some
position of the character list? -/
def research : RE → List Char → Bool
  | r, [] => nullable r
  | r, c :: cs => matchPre r (c :: cs) || research r cs

/-- The characters Python re treats as special (re module documentation). -/
def reSpecials : List Char :=
  ['.', '^', '$', '*', '+', '?', '{', '}', '[', ']', '\\', '|', '(', ')']

/-- Fold a reversed sequence of already-parsed atoms into one
concatenation. -/
def mkSeq (rev : List RE) : RE :=
  rev.foldl (fun acc a => catS a acc) .eps

/-- Fold a first alternative and the reversed remaining alternatives into
one alternation. -/
def mkAlt (first : RE) (altsRev : List RE) : RE :=
  altsRev.foldl (fun acc a => altS a acc) first

/-- One-pass parser for the supported fragment of Python re syntax.  The
state is the pending input, a stack of suspended groups (one frame per
open parenthesis), the completed alternatives of the current group
(reversed) and the atoms of the current sequence (reversed).  Character
classes, anchors and brace quantifiers are not supported and yield none
(for a bare bracket Python itself raises re.error). -/
def parseLoop : List Char → List (List RE × List RE) → List RE → List RE → Option RE
  | [], stack, altsRev, seqRev =>
      match stack with
      | [] => some (mkAlt (mkSeq seqRev) altsRev)
      | _ :: _ => none
  | c :: rest, stack, altsRev, seqRev =>
      if c = '|' then parseLoop rest stack (mkSeq seqRev :: altsRev) []
      else if c = '(' then parseLoop rest ((altsRev, seqRev) :: stack) [] []
      else if c = ')' then
        match stack with
        | (altsRev₀, seqRev₀) :: stack' =>
            parseLoop rest stack' altsRev₀ (mkAlt (mkSeq seqRev) altsRev :: seqRev₀)
        | [] => none
      else if c = '*' then
        match seqRev with
        | a :: seqRev' => parseLoop rest stack altsRev (.star a :: seqRev')
        | [] => none
      else if c = '+' then
        match seqRev with
        | a :: seqRev' => parseLoop rest stack altsRev (.cat a (.star a) :: seqRev')
        | [] => none
      else if c = '?' then
        match seqRev with
        | a :: seqRev' => parseLoop rest stack altsRev (.alt a .eps :: seqRev')
        | [] => none
      else if c = '.' then parseLoop rest stack altsRev (.dot :: seqRev)
      else if c = '\\' then
        match rest with
        | c' :: rest' =>
            if c'.isAlphanum then none
            else parseLoop rest' stack altsRev (.lit c' :: seqRev)
        | [] => none
      else if c ∈ ['^', '$', '{', '}', '[', ']'] then none
      else parseLoop rest stack altsRev (.lit c :: seqRev)

/-- Compile a pattern given as a character list. -/
def parseRE (cs : List Char) : Option RE :=
  parseLoop cs [] [] []

/-- The shape the parser produces for a purely literal pattern. -/
def litRE : List Char → RE
  | [] => .eps
  | [c] => .lit c
  | c :: cs => .cat (.lit c) (litRE cs)

/-! ## Row projection (extract_dataframe, src lines 68-86) -/

/-- Projection of one profile to one flat row, with the defaults the code
passes to .get. -/
def projectProfile (p : Profile) : Row where
  username := p.username.getD ""
  full_name := p.full_name.getD ""
  roles := joinComma (p.roles.getD [])
  company := p.company.getD ""
  company_size := p.company_size.getD ""
  evidence_count := p.evidence_count.getD 0
  first_date := p.first_evidence_date.getD ""
  latest_date := p.latest_evidence_date.getD ""

/-- extract_dataframe: one row per profile, in document order. -/
def extract_dataframe (d : Document) : List Row :=
  (d.profiles.getD []).map projectProfile

/-! ## Filter engine (src lines 117-129) -/

/-- The row predicate of the search filter: the compiled pattern is
searched in the lowercased username or the lowercased full name
(the two str.contains masks combined with the or of src line 119-122). -/
def rowMatches (r : RE) (row : Row) : Bool :=
  research r (lowerChars row.username) || research r (lowerChars row.full_name)

/-- The search filter (src lines 118-122).  An empty search box is falsy
in Python, so the filter is skipped entirely.  Otherwise the pattern is
compiled (a pattern rejected by re raises, modelled by Except.error) and
the rows are masked. -/
def searchStage (q : String) (rows : List Row) : Except String (List Row) :=
  if q.data.isEmpty then .ok rows
  else
    match parseRE (q.data.map Char.toLower) with
    | none => .error "re.error: bad pattern"
    | some r => .ok (rows.filter (rowMatches r))

/-- The evidence-count filter (src line 124): evidence_count >= min_evidence. -/
def evidenceStage (m : Nat) (rows : List Row) : List Row :=
  rows.filter (fun r => m ≤ r.evidence_count)

/-- The company-size filter (src lines 126-127), skipped for the "All"
sentinel. -/
def sizeStage (sel : String) (rows : List Row) : List Row :=
  if sel = "All" then rows else rows.filter (fun r => r.company_size = sel)

/-- The full filter pipeline in source order: search, then evidence
count, then company size. -/
def applyFilters (q : Query) (rows : List Row) : Except String (List Row) :=
  match searchStage q.search_query rows with
  | .error e => .error e
  | .ok r₁ => .ok (sizeStage q.selected_size (evidenceStage q.min_evidence r₁))

/-- The sidebar defaults: empty search text, slider at its lower bound 0,
selectbox on its first entry "All". -/
def identityQuery : Query :=
  { search_query := "", min_evidence := 0, selected_size := "All" }

/-- src line 129: keep the profiles whose username occurs among the
username values of the filtered rows.  p.get("username") has no default
there, so a profile without the key contributes None, and None is not
equal to any string value. -/
def filtered_profiles (profiles : List Profile) (frows : List Row) : List Profile :=
  profiles.filter (fun p =>
    match p.username with
    | none => false
    | some u => (frows.map Row.username).contains u)

/-! ## Stable sorting (model of Python list.sort, src lines 264-272) -/

/-- Insert an element in front of the first list element it compares
le to; the building block of the stable sort. -/
def pyInsert (le : α → α → Bool) (a : α) : List α → List α
  | [] => [a]
  | b :: l => if le a b then a :: b :: l else b :: pyInsert le a l

/-- Stable sort with a boolean comparison.  Python list.sort (Timsort) is
stable, and every stable sort with the same total preorder computes the
same list, so insertion sort is a faithful embedding of it. -/
def pySortBy (le : α → α → Bool) : List α → List α
  | [] => []
  | a :: l => pyInsert le a (pySortBy le l)

/-- Code-point lexicographic comparison of character lists; models the
comparison Python uses on str values. -/
def strLe : List Char → List Char → Bool
  | [], _ => true
  | _ :: _, [] => false
  | a :: as, b :: bs =>
      if a.toNat < b.toNat then true
      else if b.toNat < a.toNat then false
      else strLe as bs

/-- Sort key of the evidence-count sorts: x.get("evidence_count", 0). -/
def ecKey (p : Profile) : Nat :=
  p.evidence_count.getD 0

/-- Sort key of "Username (A-Z)": x.get("username", "").lower(). -/
def unameKey (p : Profile) : List Char :=
  lowerChars (p.username.getD "")

/-- Sort key of "Latest Activity": x.get("latest_evidence_date", ""). -/
def latestKey (p : Profile) : List Char :=
  (p.latest_evidence_date.getD "").data

/-- The sort dispatch of src lines 265-272.  reverse=True keeps equal
elements in input order, which is exactly a stable sort with the flipped
comparison.  An unrecognized option leaves the list unsorted. -/
def sortProfiles (opt : String) (l : List Profile) : List Profile :=
  if opt = "Evidence Count (High to Low)" then
    pySortBy (fun x y => ecKey y ≤ ecKey x) l
  else if opt = "Evidence Count (Low to High)" then
    pySortBy (fun x y => ecKey x ≤ ecKey y) l
  else if opt = "Username (A-Z)" then
    pySortBy (fun x y => strLe (unameKey x) (unameKey y)) l
  else if opt = "Latest Activity" then
    pySortBy (fun x y => strLe (latestKey y) (latestKey x)) l
  else l

/-! ## Timeline aggregation (src lines 224-238) -/

/-- Numeric value of an ASCII digit. -/
def digitVal (c : Char) : Nat :=
  c.toNat - 48

/-- The month field of strptime "%Y-%m-%d": the CPython regex fragment
(1[0-2]|0[1-9]|[1-9]), i.e. one or two digits in 1..12. -/
def parseMonth : List Char → Option (Nat × List Char)
  | '1' :: c :: rest =>
      if '0' ≤ c ∧ c ≤ '2' then some (10 + digitVal c, rest)
      else some (1, c :: rest)
  | '0' :: c :: rest =>
      if '1' ≤ c ∧ c ≤ '9' then some (digitVal c, rest) else none
  | c :: rest =>
      if '1' ≤ c ∧ c ≤ '9' then some (digitVal c, rest) else none
  | [] => none

/-- The day field of strptime "%Y-%m-%d": the CPython regex fragment
(3[01]|[12]\d|0[1-9]|[1-9]), i.e. one or two digits in 1..31. -/
def parseDay : List Char → Option (Nat × List Char)
  | '3' :: c :: rest =>
      if c = '0' ∨ c = '1' then some (30 + digitVal c, rest)
      else some (3, c :: rest)
  | c₁ :: c₂ :: rest =>
      if (c₁ = '1' ∨ c₁ = '2') ∧ c₂.isDigit then
        some (digitVal c₁ * 10 + digitVal c₂, rest)
      else if c₁ = '0' ∧ '1' ≤ c₂ ∧ c₂ ≤ '9' then some (digitVal c₂, rest)
      else if '1' ≤ c₁ ∧ c₁ ≤ '9' then some (digitVal c₁, c₂ :: rest)
      else none
  | [c] => if '1' ≤ c ∧ c ≤ '9' then some (digitVal c, []) else none
  | [] => none

/-- Gregorian leap year, as datetime implements it. -/
def isLeap (y : Nat) : Bool :=
  y % 4 = 0 && (y % 100 ≠ 0 || y % 400 = 0)

/-- Days in a month, as datetime implements it. -/
def daysInMonth (y m : Nat) : Nat :=
  if m = 2 then (if isLeap y then 29 else 28)
  else if m ∈ [4, 6, 9, 11] then 30
  else 31

/-- datetime.strptime(s, "%Y-%m-%d"): exactly four digits of year, a
dash, the month field, a dash, the day field, end of string; then the
datetime constructor checks the triple is a real calendar date with
year at least MINYEAR = 1.  Any failure raises, which the code catches;
here every failure is none. -/
def parseYMD (s : String) : Option (Nat × Nat × Nat) :=
  match s.data with
  | y₁ :: y₂ :: y₃ :: y₄ :: '-' :: rest =>
      if y₁.isDigit ∧ y₂.isDigit ∧ y₃.isDigit ∧ y₄.isDigit then
        let y := ((digitVal y₁ * 10 + digitVal y₂) * 10 + digitVal y₃) * 10 + digitVal y₄
        match parseMonth rest with
        | some (m, '-' :: rest₂) =>
            match parseDay rest₂ with
            | some (d, []) =>
                if 1 ≤ y ∧ d ≤ daysInMonth y m then some (y, m, d) else none
            | _ => none
        | _ => none
      else none
  | _ => none

/-- Decimal digits of a number, zero-padded on the left to the given
width; building block of the pandas Period month label. -/
def padNum (width n : Nat) : String :=
  let s := toString n
  ⟨List.replicate (width - s.data.length) '0' ++ s.data⟩

/-- The "YYYY-MM" label pandas Period(freq = M) prints for a date. -/
def monthStr (y m : Nat) : String :=
  padNum 4 y ++ "-" ++ padNum 2 m

/-- Every date string the two collection loops of src lines 225-227 see,
in iteration order: for each profile, for each evidence item, the value
of evidence.get("date", ""). -/
def allDateStrings (d : Document) : List String :=
  (d.profiles.getD []).flatMap (fun p =>
    (p.evidence.getD []).map (fun e => e.date.getD ""))

/-- The year-month labels of the dates that survive collection
(src lines 227-233 and 237): empty strings are skipped by the truthiness
test, anything strptime rejects is skipped by the except clause, and each
surviving date is reduced to its Period(M) label. -/
def bucketsOf (dates : List String) : List String :=
  (dates.filterMap (fun ds => if ds = "" then none else parseYMD ds)).map
    (fun t => monthStr t.1 t.2.1)

/-- value_counts().sort_index() on the labels (src line 238): the
distinct labels in ascending string order, each with its number of
occurrences. -/
def timelineOf (dates : List String) : List (String × Nat) :=
  (pySortBy (fun a b => strLe a.data b.data) (bucketsOf dates).dedup).map
    (fun k => (k, (bucketsOf dates).count k))

/-- The timeline of the whole document (src lines 224-238). -/
def aggregate_timeline (d : Document) : List (String × Nat) :=
  timelineOf (allDateStrings d)

/-- Written from the spec, for comparison with the code: a string of the
exact shape YYYY-MM-DD (four digits, dash, two digits, dash, two digits).
This is the strict pattern the spec says dates are parsed against. -/
def specStrictYMD (s : String) : Bool :=
  match s.data with
  | [a, b, c, d, '-', e, f, '-', g, h] =>
      a.isDigit && b.isDigit && c.isDigit && d.isDigit &&
      e.isDigit && f.isDigit && g.isDigit && h.isDigit
  | _ => false

/-! ## Filter stages as independent pipeline steps (for the order
commutation property).  Applying a stage can fail only in the search
stage (pattern compilation), so the other two are lifted into Except. -/

/-- The search stage as a pipeline step of the given query. -/
def stageS (q : Query) (rows : List Row) : Except String (List Row) :=
  searchStage q.search_query rows

/-- The evidence-count stage as a pipeline step of the given query. -/
def stageE (q : Query) (rows : List Row) : Except String (List Row) :=
  .ok (evidenceStage q.min_evidence rows)

/-- The company-size stage as a pipeline step of the given query. -/
def stageC (q : Query) (rows : List Row) : Except String (List Row) :=
  .ok (sizeStage q.selected_size rows)

/-- Run three pipeline steps in the given order. -/
def runOrder (s₁ s₂ s₃ : List Row → Except String (List Row))
    (rows : List Row) : Except String (List Row) :=
  ((s₁ rows).bind s₂).bind s₃

/-- Replace an absent sort-relevant field by the default the sort key
function would supply for it (0, "" and "" respectively).  A profile and
its filled version are indistinguishable to every sort key. -/
def fillDefaults (p : Profile) : Profile :=
  { p with
    username := some (p.username.getD "")
    evidence_count := some (p.evidence_count.getD 0)
    latest_evidence_date := some (p.latest_evidence_date.getD "") }

/-! ## Dataset loader (load_data, src lines 54-66) -/

/-- The two document-level failures of load_data. -/
inductive LoadError : Type
  | NotFound : LoadError
  | ParseError : String → LoadError
deriving DecidableEq, Repr

/-- load_data relative to an abstract file system (None models
FileNotFoundError) and an abstract JSON parser (the json module is
external to the repository).  st.error followed by st.stop halts the
script, modelled by the Except error carrying no document. -/
def load_data (readFile : String → Option String)
    (parseJson : String → Except String Doc) (file_path : String) :
    Except LoadError Doc :=
  match readFile file_path with
  | none => .error .NotFound
  | some content =>
      match parseJson content with
      | .error e => .error (.ParseError e)
      | .ok d => .ok d

/-! ## Concrete fixtures used by the witness and counterexample
theorems -/

/-- A profile with only a username, an evidence count and evidence
items; every other key absent. -/
def mkProfile (u : Option String) (ec : Option Nat) (ev : Option (List Evidence)) : Profile :=
  { username := u, full_name := none, roles := none, company := none,
    company_size := none, profile_url := none, evidence_count := ec,
    first_evidence_date := none, latest_evidence_date := none, evidence := ev }

/-- An evidence item carrying only a date string. -/
def mkEvidence (ds : String) : Evidence :=
  { date := some ds, quote := none, tweet_url := none }

/-- The row of a profile that has only username "alice_dev". -/
def rowAlice : Row :=
  { username := "alice_dev", full_name := "", roles := "", company := "",
    company_size := "", evidence_count := 0, first_date := "", latest_date := "" }

/-! # Lemmas -/

/-! ## Character facts -/

theorem toNat_ofNat_valid (n : Nat) (h : Nat.isValidChar n) :
    (Char.ofNat n).toNat = n := by
  rw [Char.ofNat, dif_pos h]
  simp [Char.ofNatAux, Char.toNat, UInt32.toNat, UInt32.ofNat']

/-- Lowercasing never turns a regular character into a regex
metacharacter: the metacharacters are not letters, and lowercasing moves
an uppercase letter to a lowercase letter. -/
theorem toLower_notin_reSpecials {c : Char} (h : c ∉ reSpecials) :
    Char.toLower c ∉ reSpecials := by
  intro hmem
  unfold Char.toLower at hmem
  by_cases hb : c.toNat ≥ 65 ∧ c.toNat ≤ 90
  · rw [if_pos hb] at hmem
    have hv : Nat.isValidChar (c.toNat + 32) := Or.inl (by omega)
    have ht : (Char.ofNat (c.toNat + 32)).toNat = c.toNat + 32 :=
      toNat_ofNat_valid _ hv
    have hmap : (Char.ofNat (c.toNat + 32)).toNat ∈ reSpecials.map Char.toNat :=
      List.mem_map_of_mem _ hmem
    have hlist : reSpecials.map Char.toNat
        = [46, 94, 36, 42, 43, 63, 123, 125, 91, 93, 92, 124, 40, 41] := rfl
    rw [hlist, ht] at hmap
    simp only [List.mem_cons, List.not_mem_nil, or_false] at hmap
    omega
  · rw [if_neg hb] at hmem
    exact h hmem

/-! ## Regular expression matching lemmas -/

theorem matchPre_fail (cs : List Char) : matchPre .fail cs = false := by
  induction cs with
  | nil => rfl
  | cons c cs ih =>
    simp only [matchPre, rderiv, Bool.or_eq_false_iff]
    exact ⟨rfl, ih⟩

theorem catS_eps_left (r : RE) : catS .eps r = r := by
  cases r <;> rfl

theorem catS_fail_left (r : RE) : catS .fail r = .fail := by
  cases r <;> rfl

theorem nullable_litRE (l : List Char) : nullable (litRE l) = l.isEmpty := by
  match l with
  | [] => rfl
  | [c] => rfl
  | c :: c' :: cs => rfl

theorem rderiv_litRE (c : Char) (l : List Char) (d : Char) :
    rderiv (litRE (c :: l)) d = if d = c then litRE l else .fail := by
  match l with
  | [] => simp only [litRE, rderiv]
  | c' :: cs =>
    show rderiv (.cat (.lit c) (litRE (c' :: cs))) d = _
    have hstep : rderiv (.cat (.lit c) (litRE (c' :: cs))) d
        = catS (rderiv (.lit c) d) (litRE (c' :: cs)) := by
      simp [rderiv, nullable]
    rw [hstep]
    by_cases hd : d = c
    · simp [rderiv, hd, catS_eps_left]
    · simp [rderiv, hd, catS_fail_left]

theorem matchPre_litRE (l cs : List Char) :
    matchPre (litRE l) cs = true ↔ l <+: cs := by
  induction l generalizing cs with
  | nil =>
    have h1 : ∀ cs, matchPre (litRE []) cs = true := by
      intro cs
      cases cs <;> rfl
    simp [h1]
  | cons c l ih =>
    cases cs with
    | nil =>
      rw [show matchPre (litRE (c :: l)) [] = nullable (litRE (c :: l)) from rfl]
      rw [nullable_litRE]
      simp
    | cons d ds =>
      rw [show matchPre (litRE (c :: l)) (d :: ds)
          = (nullable (litRE (c :: l)) || matchPre (rderiv (litRE (c :: l)) d) ds)
          from rfl]
      rw [nullable_litRE, rderiv_litRE]
      by_cases hd : d = c
      · simp [hd, ih, List.cons_prefix_cons]
      · simp [hd, matchPre_fail, List.cons_prefix_cons, Ne.symm hd]

theorem research_litRE (l cs : List Char) :
    research (litRE l) cs = true ↔ l <:+: cs := by
  induction cs with
  | nil =>
    rw [show research (litRE l) [] = nullable (litRE l) from rfl]
    rw [nullable_litRE]
    simp [List.isEmpty_iff]
  | cons c cs ih =>
    rw [show research (litRE l) (c :: cs)
        = (matchPre (litRE l) (c :: cs) || research (litRE l) cs) from rfl]
    simp only [Bool.or_eq_true, matchPre_litRE, ih]
    exact (List.infix_cons_iff).symm

/-! ## Parser lemmas: on metacharacter-free input the parser yields the
literal expression -/

theorem parseLoop_nonspecial_step (c : Char) (rest : List Char)
    (stack : List (List RE × List RE)) (altsRev seqRev : List RE)
    (hc : c ∉ reSpecials) :
    parseLoop (c :: rest) stack altsRev seqRev
      = parseLoop rest stack altsRev (.lit c :: seqRev) := by
  have h1 : ¬ c = '|' := fun h => hc (by rw [h]; decide)
  have h2 : ¬ c = '(' := fun h => hc (by rw [h]; decide)
  have h3 : ¬ c = ')' := fun h => hc (by rw [h]; decide)
  have h4 : ¬ c = '*' := fun h => hc (by rw [h]; decide)
  have h5 : ¬ c = '+' := fun h => hc (by rw [h]; decide)
  have h6 : ¬ c = '?' := fun h => hc (by rw [h]; decide)
  have h7 : ¬ c = '.' := fun h => hc (by rw [h]; decide)
  have h8 : ¬ c = '\\' := fun h => hc (by rw [h]; decide)
  have h9 : c ∉ ['^', '$', '{', '}', '[', ']'] := by
    intro hmem
    apply hc
    simp only [reSpecials, List.mem_cons, List.not_mem_nil, or_false] at hmem ⊢
    tauto
  rw [parseLoop.eq_def]
  simp only [if_neg h1, if_neg h2, if_neg h3, if_neg h4, if_neg h5,
    if_neg h6, if_neg h7, if_neg h8, if_neg h9]

theorem parseLoop_lit (l : List Char) (acc : List RE)
    (h : ∀ c ∈ l, c ∉ reSpecials) :
    parseLoop l [] [] acc = some (mkSeq ((l.map RE.lit).reverse ++ acc)) := by
  induction l generalizing acc with
  | nil => rfl
  | cons c l ih =>
    rw [parseLoop_nonspecial_step c l [] [] acc (h c (List.mem_cons_self c l))]
    rw [ih (RE.lit c :: acc) (fun x hx => h x (List.mem_cons_of_mem c hx))]
    congr 1
    rw [List.map_cons, List.reverse_cons, List.append_assoc]
    rfl

theorem foldr_catS_lit (l : List Char) :
    List.foldr (fun x y => catS x y) .eps (l.map RE.lit) = litRE l := by
  induction l with
  | nil => rfl
  | cons c l ih =>
    rw [List.map_cons, List.foldr_cons, ih]
    match l with
    | [] => rfl
    | [c'] => rfl
    | c' :: c'' :: cs => rfl

theorem mkSeq_reverse_lit (l : List Char) :
    mkSeq ((l.map RE.lit).reverse) = litRE l := by
  rw [mkSeq, List.foldl_reverse]
  exact foldr_catS_lit l

theorem parseRE_lit (l : List Char) (h : ∀ c ∈ l, c ∉ reSpecials) :
    parseRE l = some (litRE l) := by
  rw [parseRE, parseLoop_lit l [] h, List.append_nil, mkSeq_reverse_lit]

/-- On a nonempty metacharacter-free query the search stage is exactly the
case-insensitive substring filter over username and full name. -/
theorem searchStage_nonspecial (q : String) (rows : List Row)
    (hne : q.data ≠ []) (h : ∀ c ∈ q.data, c ∉ reSpecials) :
    searchStage q rows = .ok (rows.filter (fun row =>
      decide (lowerChars q <:+: lowerChars row.username)
        || decide (lowerChars q <:+: lowerChars row.full_name))) := by
  have hlow : ∀ c ∈ q.data.map Char.toLower, c ∉ reSpecials := by
    intro c hc
    rcases List.mem_map.mp hc with ⟨d, hd, rfl⟩
    exact toLower_notin_reSpecials (h d hd)
  rw [searchStage]
  rw [if_neg (by simpa [List.isEmpty_iff] using hne)]
  rw [parseRE_lit _ hlow]
  show Except.ok (rows.filter (rowMatches (litRE (q.data.map Char.toLower)))) = _
  congr 1
  apply List.filter_congr
  intro row _
  rw [rowMatches]
  rw [Bool.eq_iff_iff]
  simp only [Bool.or_eq_true, decide_eq_true_eq]
  rw [research_litRE, research_litRE]
  rfl

/-! ## Stable sort lemmas -/

theorem pyInsert_perm (le : α → α → Bool) (a : α) (l : List α) :
    List.Perm (pyInsert le a l) (a :: l) := by
  induction l with
  | nil => exact List.Perm.refl _
  | cons b l ih =>
    rw [pyInsert]
    by_cases h : le a b = true
    · rw [if_pos h]
    · rw [if_neg h]
      exact (ih.cons b).trans (List.Perm.swap a b l)

theorem pySortBy_perm (le : α → α → Bool) (l : List α) :
    List.Perm (pySortBy le l) l := by
  induction l with
  | nil => exact List.Perm.refl _
  | cons a l ih =>
    rw [pySortBy]
    exact (pyInsert_perm le a (pySortBy le l)).trans (ih.cons a)

theorem filter_pyInsert_pos (le : α → α → Bool) (P : α → Bool) (a : α)
    (hPa : P a = true) :
    ∀ l : List α, (∀ b ∈ l, P b = true → le a b = true) →
      (pyInsert le a l).filter P = a :: l.filter P := by
  intro l
  induction l with
  | nil =>
    intro _
    simp [pyInsert, hPa]
  | cons b l ih =>
    intro H
    rw [pyInsert]
    by_cases h : le a b = true
    · rw [if_pos h]
      simp [List.filter_cons, hPa]
    · rw [if_neg h]
      have hPb : P b = false := by
        cases hPb : P b
        · rfl
        · exact absurd (H b (List.mem_cons_self b l) hPb) h
      have ih' := ih (fun x hx hPx => H x (List.mem_cons_of_mem b hx) hPx)
      simp [List.filter_cons, hPb, ih']

theorem filter_pyInsert_neg (le : α → α → Bool) (P : α → Bool) (a : α)
    (hPa : P a = false) :
    ∀ l : List α, (pyInsert le a l).filter P = l.filter P := by
  intro l
  induction l with
  | nil => simp [pyInsert, hPa]
  | cons b l ih =>
    rw [pyInsert]
    by_cases h : le a b = true
    · rw [if_pos h]
      simp [List.filter_cons, hPa]
    · rw [if_neg h]
      simp [List.filter_cons, ih]

/-- Stability of the sort, filter form: the elements of one comparison
class appear in the output exactly as they appear in the input. -/
theorem pySortBy_filter (le : α → α → Bool) (P : α → Bool)
    (H : ∀ a b, P a = true → P b = true → le a b = true) :
    ∀ l : List α, (pySortBy le l).filter P = l.filter P := by
  intro l
  induction l with
  | nil => rfl
  | cons a l ih =>
    rw [pySortBy]
    cases hPa : P a
    · rw [filter_pyInsert_neg le P a hPa, ih]
      simp [List.filter_cons, hPa]
    · rw [filter_pyInsert_pos le P a hPa (pySortBy le l)
        (fun b _ hPb => H a b hPa hPb), ih]
      simp [List.filter_cons, hPa]

theorem pairwise_pyInsert (le : α → α → Bool)
    (htot : ∀ a b, le a b = true ∨ le b a = true)
    (htrans : ∀ a b c, le a b = true → le b c = true → le a c = true) (a : α) :
    ∀ l : List α, l.Pairwise (fun x y => le x y = true) →
      (pyInsert le a l).Pairwise (fun x y => le x y = true) := by
  intro l
  induction l with
  | nil =>
    intro _
    simp [pyInsert]
  | cons b l ih =>
    intro hp
    rcases List.pairwise_cons.mp hp with ⟨hb, hl⟩
    rw [pyInsert]
    by_cases h : le a b = true
    · rw [if_pos h]
      refine List.pairwise_cons.mpr ⟨?_, hp⟩
      intro x hx
      rcases List.mem_cons.mp hx with rfl | hx
      · exact h
      · exact htrans a b x h (hb x hx)
    · rw [if_neg h]
      have hba : le b a = true := (htot a b).resolve_left h
      refine List.pairwise_cons.mpr ⟨?_, ih hl⟩
      intro x hx
      rcases List.mem_cons.mp ((pyInsert_perm le a l).mem_iff.mp hx) with rfl | hx'
      · exact hba
      · exact hb x hx'

theorem pairwise_pySortBy (le : α → α → Bool)
    (htot : ∀ a b, le a b = true ∨ le b a = true)
    (htrans : ∀ a b c, le a b = true → le b c = true → le a c = true) :
    ∀ l : List α, (pySortBy le l).Pairwise (fun x y => le x y = true) := by
  intro l
  induction l with
  | nil => exact List.Pairwise.nil
  | cons a l ih => exact pairwise_pyInsert le htot htrans a (pySortBy le l) ih

theorem pyInsert_map (f : α → β) (le₁ : α → α → Bool) (le₂ : β → β → Bool)
    (hf : ∀ a b, le₂ (f a) (f b) = le₁ a b) (a : α) :
    ∀ l : List α, pyInsert le₂ (f a) (l.map f) = (pyInsert le₁ a l).map f := by
  intro l
  induction l with
  | nil => rfl
  | cons b l ih =>
    rw [List.map_cons, pyInsert, pyInsert, hf]
    by_cases h : le₁ a b = true
    · rw [if_pos h, if_pos h, List.map_cons, List.map_cons]
    · rw [if_neg h, if_neg h, List.map_cons, ih]

theorem pySortBy_map (f : α → β) (le₁ : α → α → Bool) (le₂ : β → β → Bool)
    (hf : ∀ a b, le₂ (f a) (f b) = le₁ a b) :
    ∀ l : List α, pySortBy le₂ (l.map f) = (pySortBy le₁ l).map f := by
  intro l
  induction l with
  | nil => rfl
  | cons a l ih =>
    rw [List.map_cons, pySortBy, pySortBy, ih]
    exact pyInsert_map f le₁ le₂ hf a (pySortBy le₁ l)

/-! ## Lexicographic string comparison lemmas -/

theorem char_toNat_inj {c d : Char} (h : c.toNat = d.toNat) : c = d :=
  Char.eq_of_val_eq (UInt32.toNat.inj h)

theorem strLe_cons_iff (a b : Char) (as bs : List Char) :
    strLe (a :: as) (b :: bs) = true
      ↔ a.toNat < b.toNat ∨ (a.toNat = b.toNat ∧ strLe as bs = true) := by
  rw [show strLe (a :: as) (b :: bs)
      = (if a.toNat < b.toNat then true
         else if b.toNat < a.toNat then false else strLe as bs) from rfl]
  split_ifs with h1 h2
  · simp [h1]
  · constructor
    · intro h
      cases h
    · intro h
      omega
  · have heq : a.toNat = b.toNat := by omega
    simp [heq]

theorem strLe_refl : ∀ l : List Char, strLe l l = true := by
  intro l
  induction l with
  | nil => rfl
  | cons a as ih => simp [strLe_cons_iff, ih]

theorem strLe_total : ∀ l m : List Char, strLe l m = true ∨ strLe m l = true := by
  intro l
  induction l with
  | nil => intro m; left; rfl
  | cons a as ih =>
    intro m
    cases m with
    | nil => right; rfl
    | cons b bs =>
      rcases Nat.lt_trichotomy a.toNat b.toNat with h | h | h
      · left
        simp [strLe_cons_iff, h]
      · rcases ih bs with hab | hba
        · left
          simp [strLe_cons_iff, h, hab]
        · right
          simp [strLe_cons_iff, h.symm, hba]
      · right
        simp [strLe_cons_iff, h]

theorem strLe_trans :
    ∀ l m n : List Char, strLe l m = true → strLe m n = true → strLe l n = true := by
  intro l
  induction l with
  | nil => intro m n _ _; rfl
  | cons a as ih =>
    intro m n h1 h2
    cases m with
    | nil => simp [strLe.eq_def] at h1
    | cons b bs =>
      cases n with
      | nil => simp [strLe.eq_def] at h2
      | cons c cs =>
        rw [strLe_cons_iff] at h1 h2 ⊢
        rcases h1 with h1 | ⟨h1e, h1r⟩
        · rcases h2 with h2 | ⟨h2e, _⟩
          · left; omega
          · left; omega
        · rcases h2 with h2 | ⟨h2e, h2r⟩
          · left; omega
          · right
            exact ⟨by omega, ih bs cs h1r h2r⟩

theorem strLe_antisymm :
    ∀ l m : List Char, strLe l m = true → strLe m l = true → l = m := by
  intro l
  induction l with
  | nil =>
    intro m _ h2
    cases m with
    | nil => rfl
    | cons b bs => simp [strLe.eq_def] at h2
  | cons a as ih =>
    intro m h1 h2
    cases m with
    | nil => simp [strLe.eq_def] at h1
    | cons b bs =>
      rw [strLe_cons_iff] at h1 h2
      rcases h1 with h1 | ⟨h1e, h1r⟩
      · rcases h2 with h2 | ⟨h2e, _⟩
        · omega
        · omega
      · rcases h2 with h2 | ⟨h2e, h2r⟩
        · omega
        · rw [char_toNat_inj h1e, ih bs h1r h2r]

theorem strLe_nil_iff (l : List Char) : strLe l [] = true ↔ l = [] := by
  cases l with
  | nil => exact ⟨fun _ => rfl, fun _ => rfl⟩
  | cons a as =>
    rw [show strLe (a :: as) [] = false from rfl]
    simp

/-! ## Filter pipeline lemmas -/

theorem searchStage_empty (rows : List Row) : searchStage "" rows = .ok rows := rfl

theorem evidenceStage_zero (rows : List Row) : evidenceStage 0 rows = rows := by
  rw [evidenceStage]
  apply List.filter_eq_self.mpr
  intro a _
  simp

theorem sizeStage_all (rows : List Row) : sizeStage "All" rows = rows := by
  rw [sizeStage, if_pos rfl]

theorem applyFilters_identity (rows : List Row) :
    applyFilters identityQuery rows = .ok rows := by
  show (match searchStage "" rows with
        | .error e => Except.error e
        | .ok r₁ => .ok (sizeStage "All" (evidenceStage 0 r₁))) = .ok rows
  rw [searchStage_empty]
  show Except.ok (sizeStage "All" (evidenceStage 0 rows)) = .ok rows
  rw [evidenceStage_zero, sizeStage_all]

/-- The three possible shapes of the search stage for a fixed query: the
filter is skipped, the pattern is rejected, or the rows are masked by the
compiled pattern — each uniformly in the rows. -/
theorem searchStage_cases (q : String) :
    (∀ rows, searchStage q rows = .ok rows) ∨
    (∃ e, ∀ rows, searchStage q rows = .error e) ∨
    (∃ r, ∀ rows, searchStage q rows = .ok (rows.filter (rowMatches r))) := by
  by_cases he : q.data.isEmpty = true
  · left
    intro rows
    rw [searchStage, if_pos he]
  · cases hp : parseRE (q.data.map Char.toLower) with
    | none =>
      right; left
      exact ⟨"re.error: bad pattern", fun rows => by rw [searchStage, if_neg he, hp]⟩
    | some r =>
      right; right
      exact ⟨r, fun rows => by rw [searchStage, if_neg he, hp]⟩

/-- The company-size stage is the identity or a filter, uniformly in the
rows. -/
theorem sizeStage_cases (sel : String) :
    (∀ rows, sizeStage sel rows = rows) ∨
    (∀ rows : List Row, sizeStage sel rows
      = rows.filter (fun r => decide (r.company_size = sel))) := by
  by_cases h : sel = "All"
  · left
    intro rows
    rw [sizeStage, if_pos h]
  · right
    intro rows
    rw [sizeStage, if_neg h]

theorem searchStage_ok_sublist (q : String) (rows r₁ : List Row)
    (h : searchStage q rows = .ok r₁) : r₁.Sublist rows := by
  rcases searchStage_cases q with hc | ⟨e, hc⟩ | ⟨r, hc⟩
  · rw [hc rows] at h
    injection h with h
    exact h ▸ List.Sublist.refl rows
  · rw [hc rows] at h
    exact Except.noConfusion h
  · rw [hc rows] at h
    injection h with h
    exact h ▸ List.filter_sublist rows

/-! ## Timeline lemmas -/

/-- The timeline depends on the collected date strings only through
their multiset: splitting the same dates differently across profiles
cannot change it. -/
theorem timelineOf_perm {A B : List String} (h : List.Perm A B) :
    timelineOf A = timelineOf B := by
  have hb : List.Perm (bucketsOf A) (bucketsOf B) :=
    (h.filterMap _).map _
  have hd : List.Perm (bucketsOf A).dedup (bucketsOf B).dedup := hb.dedup
  have hsortperm : List.Perm
      (pySortBy (fun a b => strLe a.data b.data) (bucketsOf A).dedup)
      (pySortBy (fun a b => strLe a.data b.data) (bucketsOf B).dedup) :=
    ((pySortBy_perm _ _).trans hd).trans (pySortBy_perm _ _).symm
  have htot : ∀ a b : String,
      strLe a.data b.data = true ∨ strLe b.data a.data = true :=
    fun a b => strLe_total a.data b.data
  have htrans : ∀ a b c : String, strLe a.data b.data = true →
      strLe b.data c.data = true → strLe a.data c.data = true :=
    fun a b c => strLe_trans a.data b.data c.data
  have hkeys : pySortBy (fun a b => strLe a.data b.data) (bucketsOf A).dedup
      = pySortBy (fun a b => strLe a.data b.data) (bucketsOf B).dedup := by
    refine @List.eq_of_perm_of_sorted String
      (fun a b => strLe a.data b.data = true)
      ⟨fun a b h1 h2 => ?_⟩ _ _ hsortperm ?_ ?_
    · have := strLe_antisymm a.data b.data h1 h2
      cases a
      cases b
      exact congrArg String.mk this
    · exact pairwise_pySortBy _ htot htrans _
    · exact pairwise_pySortBy _ htot htrans _
  rw [timelineOf, timelineOf, hkeys]
  apply List.map_congr_left
  intro k _
  rw [hb.count_eq]

theorem applyFilters_ok {q : Query} {rows out : List Row}
    (h : applyFilters q rows = .ok out) :
    ∃ r₁, searchStage q.search_query rows = .ok r₁ ∧
      out = sizeStage q.selected_size (evidenceStage q.min_evidence r₁) := by
  cases hsr : searchStage q.search_query rows with
  | error e =>
    rw [applyFilters, hsr] at h
    exact Except.noConfusion h
  | ok r₁ =>
    rw [applyFilters, hsr] at h
    exact ⟨r₁, rfl, (Except.ok.inj h).symm⟩

/-! # Claim theorems -/

/-- C3: filtering is a pure narrowing: every successful filter output is
a sublist (subset, in input order) of the input rows; and the identity
query (empty search text, zero evidence threshold, company size "All")
returns the input rows unchanged. -/
theorem C3_filter_subset_and_identity :
    (∀ (q : Query) (rows out : List Row),
        applyFilters q rows = .ok out → out.Sublist rows) ∧
    (∀ rows : List Row, applyFilters identityQuery rows = .ok rows) := by
  constructor
  · intro q rows out h
    rcases applyFilters_ok h with ⟨r₁, hs, hout⟩
    have h1 : r₁.Sublist rows := searchStage_ok_sublist _ _ _ hs
    have h2 : (evidenceStage q.min_evidence r₁).Sublist r₁ :=
      List.filter_sublist _
    have h3 : (sizeStage q.selected_size (evidenceStage q.min_evidence r₁)).Sublist
        (evidenceStage q.min_evidence r₁) := by
      rcases sizeStage_cases q.selected_size with hc | hc
      · rw [hc]
      · rw [hc]
        exact List.filter_sublist _
    rw [hout]
    exact (h3.trans h2).trans h1
  · exact applyFilters_identity

/-- Witness for C3 at a concrete query and row list: the threshold 1
keeps exactly the row with evidence count 3, a sublist of the input, and
the identity query keeps both rows. -/
theorem C3_witness :
    List.Sublist [{ rowAlice with evidence_count := 3 }] [rowAlice, { rowAlice with evidence_count := 3 }] ∧
    applyFilters identityQuery [rowAlice, { rowAlice with evidence_count := 3 }]
      = .ok [rowAlice, { rowAlice with evidence_count := 3 }] :=
  ⟨C3_filter_subset_and_identity.1 { search_query := "", min_evidence := 1, selected_size := "All" }
      [rowAlice, { rowAlice with evidence_count := 3 }]
      [{ rowAlice with evidence_count := 3 }] rfl,
    C3_filter_subset_and_identity.2 _⟩

/-- C4: extract_dataframe yields exactly one row per profile in document
order; each row is the field-by-field projection of its profile with
missing strings defaulted to "", missing evidence_count defaulted to 0,
and roles joined with ", " (the join of the empty sequence being ""). -/
theorem C4_projection (d : Document) (i : Nat) :
    (extract_dataframe d).length = (d.profiles.getD []).length ∧
    (extract_dataframe d)[i]? = ((d.profiles.getD [])[i]?).map (fun p =>
      { username := p.username.getD ""
        full_name := p.full_name.getD ""
        roles := joinComma (p.roles.getD [])
        company := p.company.getD ""
        company_size := p.company_size.getD ""
        evidence_count := p.evidence_count.getD 0
        first_date := p.first_evidence_date.getD ""
        latest_date := p.latest_evidence_date.getD "" }) ∧
    joinComma [] = "" := by
  refine ⟨?_, ?_, rfl⟩
  · rw [extract_dataframe, List.length_map]
  · rw [extract_dataframe, List.getElem?_map]
    rfl

/-- C5: the filtered profile list is the input filtered by value match of
the username against the filtered row usernames: it is a sublist of the
input (order preserved), every profile whose username occurs among the
filtered row usernames keeps all its occurrences (no deduplication), and
profiles whose username does not occur — or is absent — are dropped. -/
theorem C5_profile_selection (ps : List Profile) (rs : List Row) :
    (filtered_profiles ps rs).Sublist ps ∧
    (∀ p u, p.username = some u → u ∈ rs.map Row.username →
      (filtered_profiles ps rs).count p = ps.count p) ∧
    (∀ p u, p.username = some u → u ∉ rs.map Row.username →
      (filtered_profiles ps rs).count p = 0) ∧
    (∀ p, p.username = none → (filtered_profiles ps rs).count p = 0) := by
  refine ⟨List.filter_sublist ps, ?_, ?_, ?_⟩
  · intro p u hu hmem
    apply List.count_filter
    simp [hu, List.contains, List.elem_eq_mem, hmem]
  · intro p u hu hmem
    apply List.count_eq_zero_of_not_mem
    intro hin
    rcases List.mem_filter.mp hin with ⟨_, hpred⟩
    simp [hu, List.contains, List.elem_eq_mem] at hpred
    rcases hpred with ⟨a, ha, hau⟩
    exact hmem (hau ▸ List.mem_map_of_mem Row.username ha)
  · intro p hu
    apply List.count_eq_zero_of_not_mem
    intro hin
    rcases List.mem_filter.mp hin with ⟨_, hpred⟩
    simp [hu] at hpred

/-- Witness for C5: with two copies of the alice profile, a bob profile
and a username-less profile, filtering rows to the alice row keeps both
alice occurrences and drops the others. -/
theorem C5_witness :
    (filtered_profiles
        [mkProfile (some "alice_dev") none none, mkProfile (some "alice_dev") none none,
         mkProfile (some "bob") none none, mkProfile none none none]
        [rowAlice]).count (mkProfile (some "alice_dev") none none) = 2 ∧
    (filtered_profiles
        [mkProfile (some "alice_dev") none none, mkProfile (some "alice_dev") none none,
         mkProfile (some "bob") none none, mkProfile none none none]
        [rowAlice]).count (mkProfile (some "bob") none none) = 0 ∧
    (filtered_profiles
        [mkProfile (some "alice_dev") none none, mkProfile (some "alice_dev") none none,
         mkProfile (some "bob") none none, mkProfile none none none]
        [rowAlice]).count (mkProfile none none none) = 0 :=
  ⟨((C5_profile_selection _ _).2.1 _ "alice_dev" rfl (by decide)).trans (by decide),
   (C5_profile_selection _ _).2.2.1 _ "bob" rfl (by decide),
   (C5_profile_selection _ _).2.2.2 _ rfl⟩

/-- C8: the loader yields NotFound exactly when the source is absent,
ParseError carrying the decoder diagnostic exactly when the content does
not parse, and the parsed document exactly on success; an error carries
no document, so nothing downstream can run on partial data. -/
theorem C8_load_data {Doc : Type} (readFile : String → Option String)
    (parseJson : String → Except String Doc) (file_path : String) :
    (load_data readFile parseJson file_path = .error .NotFound
      ↔ readFile file_path = none) ∧
    (∀ msg, load_data readFile parseJson file_path = .error (.ParseError msg)
      ↔ ∃ c, readFile file_path = some c ∧ parseJson c = .error msg) ∧
    (∀ doc, load_data readFile parseJson file_path = .ok doc
      ↔ ∃ c, readFile file_path = some c ∧ parseJson c = .ok doc) := by
  cases hr : readFile file_path with
  | none => refine ⟨?_, ?_, ?_⟩ <;> simp [load_data, hr]
  | some c =>
    cases hp : parseJson c with
    | error e => refine ⟨?_, ?_, ?_⟩ <;> simp [load_data, hr, hp]
    | ok doc => refine ⟨?_, ?_, ?_⟩ <;> simp [load_data, hr, hp]

/-- C9: a profile without a username key projects to a row whose
username is the empty string; the identity query keeps that row among
the filtered rows, yet the profile itself is excluded from the filtered
profiles, because its missing username (None) never equals any row
username value. -/
theorem C9_missing_username (d : Document) (p : Profile)
    (hmem : p ∈ d.profiles.getD []) (hu : p.username = none) :
    (projectProfile p).username = "" ∧
    applyFilters identityQuery (extract_dataframe d) = .ok (extract_dataframe d) ∧
    projectProfile p ∈ extract_dataframe d ∧
    p ∉ filtered_profiles (d.profiles.getD []) (extract_dataframe d) := by
  refine ⟨?_, applyFilters_identity _, ?_, ?_⟩
  · simp [projectProfile, hu]
  · rw [extract_dataframe]
    exact List.mem_map_of_mem projectProfile hmem
  · intro hbad
    rcases List.mem_filter.mp hbad with ⟨_, hpred⟩
    simp [hu] at hpred

/-- Witness for C9 on a one-profile document whose profile lacks the
username key. -/
theorem C9_witness :
    (projectProfile (mkProfile none none none)).username = "" ∧
    applyFilters identityQuery
        (extract_dataframe { metadata := none, profiles := some [mkProfile none none none] })
      = .ok (extract_dataframe { metadata := none, profiles := some [mkProfile none none none] }) ∧
    projectProfile (mkProfile none none none)
      ∈ extract_dataframe { metadata := none, profiles := some [mkProfile none none none] } ∧
    mkProfile none none none ∉ filtered_profiles
        (Option.getD (Document.profiles { metadata := none, profiles := some [mkProfile none none none] }) [])
        (extract_dataframe { metadata := none, profiles := some [mkProfile none none none] }) :=
  C9_missing_username { metadata := none, profiles := some [mkProfile none none none] }
    (mkProfile none none none) (by decide) rfl

/-- C1, counterexample to the claim as stated: pandas str.contains
treats the query as a regular expression, so the query "." matches the
row with username "alice_dev" although "." is not a case-insensitive
substring of "alice_dev" or of the empty full name. -/
theorem C1_counterexample :
    searchStage "." [rowAlice] = .ok [rowAlice] ∧
    ¬ (lowerChars "." <:+: lowerChars rowAlice.username) ∧
    ¬ (lowerChars "." <:+: lowerChars rowAlice.full_name) := by
  refine ⟨rfl, ?_, ?_⟩ <;> decide

/-- C1 as amended: the search text is interpreted as a Python regular
expression; for every nonempty query free of regex metacharacters the
search stage keeps exactly the rows of which the query is a
case-insensitive substring of the username or of the full name; an empty
query leaves the rows untouched (the filter is skipped); the query
"ALICE" matches the row with username "alice_dev". -/
theorem C1_search_amended :
    (∀ (q : String) (rows : List Row), q.data ≠ [] →
      (∀ c ∈ q.data, c ∉ reSpecials) →
      searchStage q rows = .ok (rows.filter (fun row =>
        decide (lowerChars q <:+: lowerChars row.username)
          || decide (lowerChars q <:+: lowerChars row.full_name)))) ∧
    (∀ rows : List Row, searchStage "" rows = .ok rows) ∧
    searchStage "ALICE" [rowAlice] = .ok [rowAlice] := by
  refine ⟨?_, searchStage_empty, rfl⟩
  intro q rows hne h
  exact searchStage_nonspecial q rows hne h

/-- Witness for C1 at the concrete query "ALICE" over the alice row. -/
theorem C1_witness :
    searchStage "ALICE" [rowAlice] = .ok ([rowAlice].filter (fun row =>
      decide (lowerChars "ALICE" <:+: lowerChars row.username)
        || decide (lowerChars "ALICE" <:+: lowerChars row.full_name))) :=
  C1_search_amended.1 "ALICE" [rowAlice] (by decide) (by decide)

/-- C2, counterexample to the claim as stated: strptime with format
%Y-%m-%d also accepts un-padded months and days, so the date "2024-1-5",
which is not of the strict shape YYYY-MM-DD, is not discarded: it is
bucketed under "2024-01".  Under the claim as stated the timeline of
this document would be empty. -/
theorem C2_counterexample :
    aggregate_timeline ⟨none, some [mkProfile none none (some [mkEvidence "2024-1-5"])]⟩
      = [("2024-01", 1)] ∧
    specStrictYMD "2024-1-5" = false := by
  constructor <;> rfl

/-- C2 as amended: dates are parsed with Python strptime %Y-%m-%d
semantics (exactly four-digit year, one- or two-digit month and day,
valid calendar date — so un-padded dates are also accepted); malformed or
empty strings are silently discarded without aborting the aggregation;
buckets are emitted in ascending month order; and the documented example
holds: the five dates split across any profiles yield
[("2024-01", 2), ("2024-02", 1)]. -/
theorem C2_timeline_amended :
    (∀ d : Document,
      List.Perm (allDateStrings d)
        ["2024-01-15", "2024-01-20", "2024-02-01", "bad-date", ""] →
      aggregate_timeline d = [("2024-01", 2), ("2024-02", 1)]) ∧
    (∀ d : Document, (aggregate_timeline d).Pairwise
      (fun (a b : String × Nat) => strLe a.1.data b.1.data = true)) ∧
    parseYMD "2024-01-15" = some (2024, 1, 15) ∧
    parseYMD "2024-1-5" = some (2024, 1, 5) ∧
    parseYMD "bad-date" = none ∧
    parseYMD "" = none ∧
    parseYMD "2024-13-01" = none ∧
    parseYMD "2024-02-30" = none := by
  refine ⟨?_, ?_, rfl, rfl, rfl, rfl, rfl, rfl⟩
  · intro d hperm
    rw [aggregate_timeline, timelineOf_perm hperm]
    decide
  · intro d
    rw [aggregate_timeline, timelineOf, List.pairwise_map]
    exact pairwise_pySortBy (fun a b => strLe a.data b.data)
      (fun (a b : String) => strLe_total a.data b.data)
      (fun (a b c : String) => strLe_trans a.data b.data c.data) _

/-- Witness for C2 on a concrete two-profile split of the five example
dates. -/
theorem C2_witness :
    aggregate_timeline ⟨none, some
        [mkProfile none none (some [mkEvidence "2024-01-15", mkEvidence "2024-01-20"]),
         mkProfile none none (some [mkEvidence "2024-02-01", mkEvidence "bad-date", mkEvidence ""])]⟩
      = [("2024-01", 2), ("2024-02", 1)] :=
  C2_timeline_amended.1 _ (by decide)

/-! ## Sort dispatch lemmas -/

theorem sortProfiles_ec_desc (l : List Profile) :
    sortProfiles "Evidence Count (High to Low)" l
      = pySortBy (fun x y => decide (ecKey y ≤ ecKey x)) l := rfl

theorem sortProfiles_ec_asc (l : List Profile) :
    sortProfiles "Evidence Count (Low to High)" l
      = pySortBy (fun x y => decide (ecKey x ≤ ecKey y)) l := rfl

theorem sortProfiles_uname (l : List Profile) :
    sortProfiles "Username (A-Z)" l
      = pySortBy (fun x y => strLe (unameKey x) (unameKey y)) l := rfl

theorem sortProfiles_latest (l : List Profile) :
    sortProfiles "Latest Activity" l
      = pySortBy (fun x y => strLe (latestKey y) (latestKey x)) l := rfl

/-- C6: each of the four recognized sort keys sorts stably: the
profiles of any one key value appear in the output exactly as they
appear in the input; and the documented example holds: profiles a, b
with evidence count 5 and c with count 3 sorted high-to-low stay in
order a, b, c. -/
theorem C6_sort_stability :
    (∀ (l : List Profile) (v : Nat),
      (sortProfiles "Evidence Count (High to Low)" l).filter (fun p => decide (ecKey p = v))
        = l.filter (fun p => decide (ecKey p = v))) ∧
    (∀ (l : List Profile) (v : Nat),
      (sortProfiles "Evidence Count (Low to High)" l).filter (fun p => decide (ecKey p = v))
        = l.filter (fun p => decide (ecKey p = v))) ∧
    (∀ (l : List Profile) (v : List Char),
      (sortProfiles "Username (A-Z)" l).filter (fun p => decide (unameKey p = v))
        = l.filter (fun p => decide (unameKey p = v))) ∧
    (∀ (l : List Profile) (v : List Char),
      (sortProfiles "Latest Activity" l).filter (fun p => decide (latestKey p = v))
        = l.filter (fun p => decide (latestKey p = v))) ∧
    sortProfiles "Evidence Count (High to Low)"
        [mkProfile (some "a") (some 5) none, mkProfile (some "b") (some 5) none,
         mkProfile (some "c") (some 3) none]
      = [mkProfile (some "a") (some 5) none, mkProfile (some "b") (some 5) none,
         mkProfile (some "c") (some 3) none] := by
  refine ⟨?_, ?_, ?_, ?_, by decide⟩
  · intro l v
    rw [sortProfiles_ec_desc]
    apply pySortBy_filter
    intro a b ha hb
    simp only [decide_eq_true_eq] at ha hb ⊢
    omega
  · intro l v
    rw [sortProfiles_ec_asc]
    apply pySortBy_filter
    intro a b ha hb
    simp only [decide_eq_true_eq] at ha hb ⊢
    omega
  · intro l v
    rw [sortProfiles_uname]
    apply pySortBy_filter
    intro a b ha hb
    simp only [decide_eq_true_eq] at ha hb
    rw [ha, hb]
    exact strLe_refl v
  · intro l v
    rw [sortProfiles_latest]
    apply pySortBy_filter
    intro a b ha hb
    simp only [decide_eq_true_eq] at ha hb
    rw [ha, hb]
    exact strLe_refl v

/-- C10: every sort key reads its field with a default (0 for the
evidence count, "" for username and latest date), so sorting a list of
profiles with absent fields equals sorting the default-filled profiles;
and in particular under "Username (A-Z)" a profile without a username
never follows a profile with a nonempty username: whenever the profile
at a later position has no username, the username of any earlier profile
defaults to the empty string. -/
theorem C10_sort_missing_defaults :
    (∀ l : List Profile, sortProfiles "Evidence Count (High to Low)" (l.map fillDefaults)
        = (sortProfiles "Evidence Count (High to Low)" l).map fillDefaults) ∧
    (∀ l : List Profile, sortProfiles "Evidence Count (Low to High)" (l.map fillDefaults)
        = (sortProfiles "Evidence Count (Low to High)" l).map fillDefaults) ∧
    (∀ l : List Profile, sortProfiles "Username (A-Z)" (l.map fillDefaults)
        = (sortProfiles "Username (A-Z)" l).map fillDefaults) ∧
    (∀ l : List Profile, sortProfiles "Latest Activity" (l.map fillDefaults)
        = (sortProfiles "Latest Activity" l).map fillDefaults) ∧
    (∀ (l : List Profile) (i j : Nat)
        (hi : i < (sortProfiles "Username (A-Z)" l).length)
        (hj : j < (sortProfiles "Username (A-Z)" l).length), i < j →
        ((sortProfiles "Username (A-Z)" l).get ⟨j, hj⟩).username = none →
        ((sortProfiles "Username (A-Z)" l).get ⟨i, hi⟩).username.getD "" = "") := by
  refine ⟨?_, ?_, ?_, ?_, ?_⟩
  · intro l
    rw [sortProfiles_ec_desc, sortProfiles_ec_desc]
    exact pySortBy_map fillDefaults _ _ (fun a b => rfl) l
  · intro l
    rw [sortProfiles_ec_asc, sortProfiles_ec_asc]
    exact pySortBy_map fillDefaults _ _ (fun a b => rfl) l
  · intro l
    rw [sortProfiles_uname, sortProfiles_uname]
    exact pySortBy_map fillDefaults _ _ (fun a b => rfl) l
  · intro l
    rw [sortProfiles_latest, sortProfiles_latest]
    exact pySortBy_map fillDefaults _ _ (fun a b => rfl) l
  · intro l i j hi hj hij hnone
    have hp : (sortProfiles "Username (A-Z)" l).Pairwise
        (fun x y => strLe (unameKey x) (unameKey y) = true) := by
      rw [sortProfiles_uname]
      exact pairwise_pySortBy (fun x y => strLe (unameKey x) (unameKey y))
        (fun (a b : Profile) => strLe_total (unameKey a) (unameKey b))
        (fun (a b c : Profile) => strLe_trans (unameKey a) (unameKey b) (unameKey c)) l
    have hle := List.pairwise_iff_get.mp hp ⟨i, hi⟩ ⟨j, hj⟩ hij
    have hkeyj : unameKey ((sortProfiles "Username (A-Z)" l).get ⟨j, hj⟩) = [] := by
      rw [unameKey, hnone]
      rfl
    rw [hkeyj] at hle
    have hnil := (strLe_nil_iff _).mp hle
    rw [unameKey, lowerChars] at hnil
    have hdata := List.map_eq_nil_iff.mp hnil
    have hstr : ∀ s : String, s.data = [] → s = "" := by
      intro s hs
      cases s
      simpa using congrArg String.mk hs
    exact hstr _ hdata

/-- Witness for C10 at a two-profile list in which the profile with
username "" precedes the profile with no username after sorting. -/
theorem C10_witness :
    ((sortProfiles "Username (A-Z)"
        [mkProfile (some "") none none, mkProfile none none none]).get
      ⟨0, by decide⟩).username.getD "" = "" :=
  C10_sort_missing_defaults.2.2.2.2
    [mkProfile (some "") none none, mkProfile none none none]
    0 1 (by decide) (by decide) (by decide) (by decide)

/-- C7: the three filter stages commute: running the search, the
evidence-count threshold and the company-size stage in any of the six
orders produces the same result (the same error when the pattern is
rejected, otherwise the same filtered row sequence). -/
theorem C7_filter_order_independent (q : Query) (rows : List Row) :
    runOrder (stageS q) (stageE q) (stageC q) rows
      = runOrder (stageS q) (stageC q) (stageE q) rows ∧
    runOrder (stageS q) (stageE q) (stageC q) rows
      = runOrder (stageE q) (stageS q) (stageC q) rows ∧
    runOrder (stageS q) (stageE q) (stageC q) rows
      = runOrder (stageE q) (stageC q) (stageS q) rows ∧
    runOrder (stageS q) (stageE q) (stageC q) rows
      = runOrder (stageC q) (stageS q) (stageE q) rows ∧
    runOrder (stageS q) (stageE q) (stageC q) rows
      = runOrder (stageC q) (stageE q) (stageS q) rows := by
  rcases searchStage_cases q.search_query with hS | ⟨e, hS⟩ | ⟨r, hS⟩ <;>
    rcases sizeStage_cases q.selected_size with hC | hC <;>
      refine ⟨?_, ?_, ?_, ?_, ?_⟩ <;>
        simp [runOrder, stageS, stageE, stageC, hS, hC, evidenceStage, Except.bind,
          List.filter_filter, Bool.and_comm, Bool.and_left_comm, Bool.and_assoc]
